import Mathlib

/-!
Verification development for the tox-config-reader substitution engine
(`src/tox_config_reader/substitutions.py`) and the configuration-file
discovery logic (`src/tox_config_reader/raw.py`).

The Python code is shallowly embedded as executable Lean definitions.
Strings are scanned as `List Char` (Python `str` indexing); Python `dict`
values are association lists with string keys (insertion ordered, unique
keys); the dynamically typed configuration tree is the inductive `Value`.

Python functions that can recurse without bound (`substitute_string` /
`_substitute_single` re-enter each other through default values, and
`substitute_value` re-enters itself on resolved inline specs) are embedded
with an explicit recursion-depth fuel returning `Option`: `Option.none`
models exhaustion of the interpreter stack (Python `RecursionError`).  A
run that terminates in Python returns `some r` for every sufficiently
large fuel; a run that diverges in Python returns `none` for every fuel.

Host facts the engine reads ad hoc (`os.pathsep`, `os.sep`,
`sys.stdin.isatty()`, the `os.environ` snapshot, the positional
arguments) are injected through the `Ctx` structure, mirroring the
keyword parameters of the Python entry points.
-/

namespace ToxCfg

/-- Characters treated as whitespace by Python `int(str)` (ASCII subset;
Unicode whitespace and Unicode decimal digits accepted by CPython are not
modelled, no claim exercises them). -/
def isPyWs (c : Char) : Bool :=
  c = ' ' || c = '\t' || c = '\n' || c = '\r' || c = '\x0b' || c = '\x0c'

/-- Digit run with single internal underscores, as accepted by Python
`int`: must start with a digit, an underscore must be followed by a
digit, no trailing underscore. -/
def pyDigitsGo (acc : Nat) : List Char → Option Nat
  | [] => some acc
  | '_' :: c :: rest =>
      if c.isDigit then pyDigitsGo (acc * 10 + (c.toNat - 48)) rest else Option.none
  | '_' :: [] => Option.none
  | c :: rest =>
      if c.isDigit then pyDigitsGo (acc * 10 + (c.toNat - 48)) rest else Option.none

def pyDigits : List Char → Option Nat
  | [] => Option.none
  | c :: rest => if c.isDigit then pyDigitsGo (c.toNat - 48) rest else Option.none

/-- Both-ends whitespace strip, as `str.strip()` inside `int()`. -/
def trimWs (l : List Char) : List Char :=
  ((l.dropWhile isPyWs).reverse.dropWhile isPyWs).reverse

/-- Python `int(s)` for a signed decimal literal; `Option.none` models
`ValueError`. -/
def pyInt? (s : List Char) : Option Int :=
  match trimWs s with
  | '+' :: rest => (pyDigits rest).map Int.ofNat
  | '-' :: rest => (pyDigits rest).map (fun n => -(Int.ofNat n))
  | rest => (pyDigits rest).map Int.ofNat

/-- `" ".join(posargs)`. -/
def joinSp : List String → String
  | [] => ""
  | [x] => x
  | x :: rest => x ++ " " ++ joinSp rest

def startsWithL (l pre : List Char) : Bool := pre.isPrefixOf l

/-- `str.endswith("]")`. -/
def endsWithBr (l : List Char) : Bool := l.getLast? = some ']'

/-- First index of a character, Python `str.find` (absent → `none`,
Python's `-1`). -/
def idxOf : List Char → Char → Option Nat
  | [], _ => Option.none
  | x :: rest, c => if x = c then some 0 else (idxOf rest c).map (· + 1)

/-- `str.split(sep)` on a single character separator. -/
def splitAllL (l : List Char) (sep : Char) : List (List Char) :=
  match l with
  | [] => [[]]
  | c :: rest =>
    if c = sep then [] :: splitAllL rest sep
    else
      match splitAllL rest sep with
      | p :: ps => (c :: p) :: ps
      | [] => [[c]]

/-- `str.split(sep, 1)`: the part before the first separator and the part
after it (the whole list and `[]` when the separator is absent; callers
guard on membership first, as the Python code does). -/
def splitFirstL (l : List Char) (sep : Char) : List Char × List Char :=
  match l with
  | [] => ([], [])
  | c :: rest =>
    if c = sep then ([], rest)
    else
      let p := splitFirstL rest sep
      (c :: p.1, p.2)

/-! ### `_find_matching_brace` (substitutions.py lines 49-78)

`fmbGo rest i depth` is the scanning loop with `rest` the suffix of the
text starting at absolute index `i`.  On success it returns the absolute
index of the matching `}` together with the suffix just after it. -/

def fmbGo : List Char → Nat → Nat → Option (Nat × List Char)
  | rest, i, 0 => some (i - 1, rest)
  | [], _, _ + 1 => Option.none
  | '\\' :: _ :: rest2, i, d + 1 => fmbGo rest2 (i + 2) (d + 1)
  | '\\' :: [], i, d + 1 => fmbGo [] (i + 1) (d + 1)
  | '{' :: rest2, i, d + 1 => fmbGo rest2 (i + 1) (d + 2)
  | '}' :: rest2, i, d + 1 => fmbGo rest2 (i + 1) d
  | _ :: rest2, i, d + 1 => fmbGo rest2 (i + 1) (d + 1)

/-- `_find_matching_brace(text, start)`: index of the `}` matching the
`{` at `start`. -/
def findMatchingBrace (text : List Char) (start : Nat) : Option Nat :=
  match text.drop start with
  | '{' :: rest => (fmbGo rest (start + 1) 1).map (·.1)
  | _ => Option.none

/-! ### `_find_substitutions` (substitutions.py lines 81-106)

The outer scan; the fuel argument only bounds the loop and never runs
out when called with the text length, since every step consumes at least
one character of the remaining suffix. -/

def fsGoF : Nat → List Char → Nat → List (Nat × Nat × String)
  | 0, _, _ => []
  | _ + 1, [], _ => []
  | fuel + 1, '\\' :: '{' :: rest2, i => fsGoF fuel rest2 (i + 2)
  | fuel + 1, '{' :: rest2, i =>
      match fmbGo rest2 (i + 1) 1 with
      | some (e, after) =>
          (i, e + 1, String.mk (rest2.take (e - (i + 1)))) :: fsGoF fuel after (e + 1)
      | Option.none => fsGoF fuel rest2 (i + 1)
  | fuel + 1, _ :: rest2, i => fsGoF fuel rest2 (i + 1)

/-- `_find_substitutions(text)`: the `(start, end, expression)` spans of
all top-level brace groups. -/
def findSubstitutions (s : String) : List (Nat × Nat × String) :=
  fsGoF s.data.length s.data 0

/-! ### `ESCAPED_BRACE_PATTERN.sub(r"\1", value)` (lines 46, 521)

Left-to-right single pass replacing a backslash followed by one of
`{ } [ ] :` with that character. -/

def stripEscapes : List Char → List Char
  | [] => []
  | '\\' :: c :: rest =>
      if c = '{' ∨ c = '}' ∨ c = '[' ∨ c = ']' ∨ c = ':' then c :: stripEscapes rest
      else '\\' :: stripEscapes (c :: rest)
  | c :: rest => c :: stripEscapes rest

/-! ### `_parse_substitution` (substitutions.py lines 317-386) -/

/-- The splitting loop: accumulates the current part reversed, tracking
brace and bracket depths as Python ints (they may go negative). -/
def parseGo : List Char → List Char → Int → Int → List (List Char)
  | [], cur, _, _ => [cur.reverse]
  | '\\' :: c :: rest, cur, bd, kd =>
      if c = ':' ∨ c = '{' ∨ c = '}' ∨ c = '[' ∨ c = ']' then parseGo rest (c :: cur) bd kd
      else parseGo (c :: rest) ('\\' :: cur) bd kd
  | '{' :: rest, cur, bd, kd => parseGo rest ('{' :: cur) (bd + 1) kd
  | '}' :: rest, cur, bd, kd => parseGo rest ('}' :: cur) (bd - 1) kd
  | '[' :: rest, cur, bd, kd => parseGo rest ('[' :: cur) bd (kd + 1)
  | ']' :: rest, cur, bd, kd => parseGo rest (']' :: cur) bd (kd - 1)
  | ':' :: rest, cur, bd, kd =>
      if bd = 0 ∧ kd = 0 then cur.reverse :: parseGo rest [] bd kd
      else parseGo rest (':' :: cur) bd kd
  | c :: rest, cur, bd, kd => parseGo rest (c :: cur) bd kd

/-- `_parse_substitution(expr)` → `(substitution_type, arguments)`. -/
def parseSubstitution (expr : String) : String × List String :=
  if expr = ":" then ("pathsep", [])
  else if expr = "/" then ("sep", [])
  else
    match parseGo expr.data [] 0 0 with
    | [] => ("unknown", [])  -- unreachable: parseGo always yields ≥ 1 part
    | k :: args => (String.mk k, args.map String.mk)

/-! ### Data model

`Value` is the dynamically-typed configuration tree (`dict[str, Any]`
leaves restricted to the types the readers produce: strings, ints,
booleans, `None`, lists, string-keyed dicts).  `Ctx` injects the
pass-through inputs and the host facts the Python engine reads from
`os` / `sys`. -/

inductive Value where
  | str (s : String)
  | int (n : Int)
  | bool (b : Bool)
  | none
  | list (xs : List Value)
  | dict (xs : List (String × Value))

/-- The substitution context: positional arguments, the environment
snapshot, and the host values `sys.stdin.isatty()`, `os.pathsep`,
`os.sep` (injected rather than read, per the spec's non-goals). -/
structure Ctx where
  posargs : List String
  environ : List (String × String)
  isatty : Bool
  pathsep : String
  sep : String

/-- `d.get(k)` on a string-keyed dict (first binding wins; Python dicts
have unique keys). -/
def pyGet (d : List (String × Value)) (k : String) : Option Value :=
  (d.find? (fun kv => kv.1 == k)).map (·.2)

def lookupStr (environ : List (String × String)) (k : String) : Option String :=
  (environ.find? (fun kv => kv.1 == k)).map (·.2)

/-- Python truthiness of a `Value` (`if extend:` etc.). -/
def truthy : Value → Bool
  | .str s => !(s == "")
  | .int n => !(n == 0)
  | .bool b => b
  | .none => false
  | .list l => !l.isEmpty
  | .dict d => !d.isEmpty

def isListV : Value → Bool
  | .list _ => true
  | _ => false

/-- The entries of a dict value; a non-dict yields `[]` (in Python an
`.get` on a non-dict section would raise `AttributeError`; no claim
exercises that corner). -/
def entriesOf : Value → List (String × Value)
  | .dict es => es
  | _ => []

/-! ### `_get_value_by_path` (substitutions.py lines 269-291)

Walks `config` by a list of keys; returns the Python object, with
`Value.none` standing for Python `None` on a missing key — exactly as in
the source, a stored `None` is indistinguishable from a missing key. -/

def getValueByPath : List Value → Value → Value
  | [], current => current
  | p :: rest, current =>
    match current, p with
    | .dict es, .str s =>
      match pyGet es s with
      | some v => getValueByPath rest v
      | Option.none => Value.none
    | _, _ => Value.none

/-! ### `_substitute_env`, `_substitute_posargs`, `_substitute_tty`
(substitutions.py lines 109-150, 192-205) -/

def substituteEnvStr (key : String) (dflt : Option String)
    (environ : List (String × String)) : String :=
  match lookupStr environ key with
  | some v => v
  | Option.none => match dflt with | some dv => dv | Option.none => ""

def substitutePosargsStr (pa : List String) (dflt : Option String) : String :=
  match pa with
  | _ :: _ => joinSp pa
  | [] => match dflt with | some dv => dv | Option.none => ""

/-! ### `_substitute_posargs_indexed` (substitutions.py lines 153-189)

`Option.none` models the caught `ValueError` (the `None` return). -/

/-- Python list slicing `l[start:end]` (step 1): `slice.indices`
normalisation — negative from the end, clamped to `[0, len]`. -/
def pySlice (pa : List String) (s e : Option Int) : List String :=
  let n : Int := pa.length
  let lo : Int := match s with
    | Option.none => 0
    | some i => if i < 0 then max (n + i) 0 else min i n
  let hi : Int := match e with
    | Option.none => n
    | some i => if i < 0 then max (n + i) 0 else min i n
  (pa.drop lo.toNat).take (hi - lo).toNat

/-- Python `l[i]` after the in-range guard (negative wraps from the
end). -/
def pyIndex (pa : List String) (i : Int) : String :=
  if i < 0 then pa.getD (i + pa.length).toNat "" else pa.getD i.toNat ""

def substitutePosargsIndexed (pa : List String) (indexExpr : String) : Option String :=
  let d := indexExpr.data
  if ':' ∈ d then
    let p := splitFirstL d ':'
    let sOpt : Option (Option Int) :=
      if p.1 = [] then some Option.none else (pyInt? p.1).map some
    let eOpt : Option (Option Int) :=
      if p.2 = [] then some Option.none else (pyInt? p.2).map some
    match sOpt, eOpt with
    | some s, some e => some (joinSp (pySlice pa s e))
    | _, _ => Option.none
  else
    match pyInt? d with
    | Option.none => Option.none
    | some idx =>
      if -((pa.length : Int)) ≤ idx ∧ idx < (pa.length : Int) then
        some (pyIndex pa idx)
      else some ""

/-! ### `_resolve_ini_section_reference` and `_resolve_dotted_reference`
(substitutions.py lines 208-266, 294-314) -/

/-- `INI_SECTION_MAP` (lines 209-214). -/
def iniSectionMap (s : String) : Option String :=
  if s = "tox" then some ""
  else if s = "tox:tox" then some ""
  else if s = "testenv" then some "env_run_base"
  else if s = "pkgenv" then some "env_pkg_base"
  else Option.none

def iniSectionRef (sec key : String) (cfg : List (String × Value)) : Option String :=
  if startsWithL sec.data ("testenv:".data) then
    let envName := String.mk (sec.data.drop 8)
    let envTable := entriesOf ((pyGet cfg "env").getD (.dict []))
    let envCfg := entriesOf ((pyGet envTable envName).getD (.dict []))
    match pyGet envCfg key with
    | some (.str v) => some v
    | _ =>
      -- fall back to env_run_base (also when the key held a non-string)
      let baseCfg := entriesOf ((pyGet cfg "env_run_base").getD (.dict []))
      match pyGet baseCfg key with
      | some (.str v) => some v
      | _ => Option.none
  else
    match iniSectionMap sec with
    | some mapped =>
      if mapped = "" then
        match pyGet cfg key with
        | some (.str v) => some v
        | _ => Option.none
      else
        let secCfg := entriesOf ((pyGet cfg mapped).getD (.dict []))
        match pyGet secCfg key with
        | some (.str v) => some v
        | _ => Option.none
    | Option.none => Option.none

def resolveDotted (path : String) (cfg : List (String × Value)) : Option String :=
  match getValueByPath ((splitAllL path.data '.').map (fun p => Value.str (String.mk p)))
      (.dict cfg) with
  | .str v => some v
  | _ => Option.none

/-! ### `_substitute_single` (substitutions.py lines 389-475)

`recur` is the recursive entry into `substitute_string` used to
substitute default values; it is instantiated with the fuelled
`subStringF` below.  The result is the substituted text; the "return the
original placeholder in braces" outcomes produce `some (braced expr)`. -/

def braced (expr : String) : String := "\x7b" ++ expr ++ "\x7d"

def subSingleW (recur : String → Option String) (expr : String)
    (cfg : List (String × Value)) (ctx : Ctx) : Option String :=
  if startsWithL expr.data ['['] then
    match idxOf expr.data ']' with
    | some b =>
      if 1 < b then
        let sec := String.mk ((expr.data.drop 1).take (b - 1))
        let key := String.mk (expr.data.drop (b + 1))
        if key = "" then some (braced expr)
        else
          match iniSectionRef sec key cfg with
          | some r => some r
          | Option.none => some (braced expr)
      else some (braced expr)
    | Option.none => some (braced expr)
  else
    let pk := parseSubstitution expr
    let subType := pk.1
    let args := pk.2
    if subType = "pathsep" then some ctx.pathsep
    else if subType = "sep" then some ctx.sep
    else if subType = "env" then
      match args with
      | [] => some (braced expr)
      | key :: rest =>
        match rest with
        | [] => some (substituteEnvStr key Option.none ctx.environ)
        | d :: _ => (recur d).map (fun dv => substituteEnvStr key (some dv) ctx.environ)
    else if subType = "posargs" ∨ startsWithL subType.data ("posargs[".data) then
      if startsWithL subType.data ("posargs[".data) ∧ endsWithBr subType.data then
        match substitutePosargsIndexed ctx.posargs
            (String.mk ((subType.data.drop 8).dropLast)) with
        | some r => some r
        | Option.none => some (braced expr)
      else
        match args with
        | [] => some (substitutePosargsStr ctx.posargs Option.none)
        | d :: _ => (recur d).map (fun dv => substitutePosargsStr ctx.posargs (some dv))
    else if subType = "tty" then
      some (if ctx.isatty then args.getD 0 "" else args.getD 1 "")
    else if ('.' ∈ expr.data) ∧ (resolveDotted expr cfg).isSome then
      resolveDotted expr cfg
    else
      match pyGet cfg subType with
      | some (.str s) => some s
      | some _ => some (braced expr)
      | Option.none => some (braced expr)

/-! ### `substitute_string` (substitutions.py lines 478-523)

The bounded fixed-point loop.  `applySpansW` replaces the located spans
right-to-left (the caller passes the reversed span list); `subRoundsW`
is the 10-round loop with the previous-value break; `subStringF` is
`substitute_string` with recursion-depth fuel. -/

def applySpansW (single : String → Option String) :
    List (Nat × Nat × String) → String → Option String
  | [], v => some v
  | (s, e, x) :: rest, v =>
    match single x with
    | some r => applySpansW single rest (String.mk (v.data.take s ++ r.data ++ v.data.drop e))
    | Option.none => Option.none

def subRoundsW (single : String → Option String) :
    Nat → Option String → String → Option String
  | 0, _, v => some v
  | k + 1, prev, v =>
    if prev = some v then some v
    else
      match applySpansW single ((findSubstitutions v).reverse) v with
      | some v2 => subRoundsW single k (some v) v2
      | Option.none => Option.none

def subStringF : Nat → String → List (String × Value) → Ctx → Option String
  | 0, _, _, _ => Option.none
  | n + 1, v, cfg, ctx =>
    (subRoundsW (fun e => subSingleW (fun s => subStringF n s cfg ctx) e cfg ctx)
        10 Option.none v).map
      (fun r => String.mk (stripEscapes r.data))

/-! ### `_is_toml_inline_substitution` and
`_resolve_toml_inline_substitution` (substitutions.py lines 526-605) -/

/-- `"replace" in value` for a dict's entries. -/
def hasReplaceKey (es : List (String × Value)) : Bool :=
  es.any (fun kv => kv.1 == "replace")

/-- The shared `if default is not None: ... return default` fallback of
the `ref` branch (auto-extends when the default is a list). -/
def refDefaultFallback (dflt : Value) (ext : Bool) : Value × Bool :=
  match dflt with
  | .none => (.str "", ext)
  | d => (d, ext || isListV d)

/-- `_resolve_toml_inline_substitution(spec, config, posargs, environ)`
→ `(resolved_value, extend_flag)`.  `spec.get("default")` returning
Python `None` is `Value.none`, indistinguishable from a missing key, as
in the source; the extend flag is reduced to its truthiness, which is
the only way the callers consume it. -/
def resolveInline (es : List (String × Value)) (cfg : List (String × Value))
    (ctx : Ctx) : Value × Bool :=
  let rep := (pyGet es "replace").getD (.str "")
  let dflt := (pyGet es "default").getD .none
  let ext := truthy ((pyGet es "extend").getD (.bool false))
  match rep with
  | .str "posargs" =>
    match ctx.posargs with
    | _ :: _ =>
      if ext || isListV dflt then (.list (ctx.posargs.map .str), ext)
      else (.str (joinSp ctx.posargs), ext)
    | [] =>
      match dflt with
      | .none => ((if ext then .list [] else .str ""), ext)
      | d => (d, ext)
  | .str "env" =>
    let nm := (pyGet es "name").getD (.str "")
    match (match nm with | .str s => lookupStr ctx.environ s | _ => Option.none) with
    | some v => (.str v, ext)
    | Option.none =>
      match dflt with
      | .none => (.str "", ext)
      | d => (d, ext)
  | .str "ref" =>
    let ofv := (pyGet es "of").getD (.list [])
    match ofv with
    | .list (p :: ps) =>
      match getValueByPath (p :: ps) (.dict cfg) with
      | .none => refDefaultFallback dflt ext
      | rv => (rv, ext || isListV rv)
    | _ => refDefaultFallback dflt ext
  | _ => (.dict es, false)

/-! ### `substitute_value` (substitutions.py lines 608-663)

`subEachW` maps the element substitution over a resolved list being
spliced; `subListW` is the list branch with inline-spec handling;
`subDictW` the per-entry dict recursion.  All three take the recursive
element substitutor (`substitute_value` one stack frame deeper) as a
parameter; `subValueF` ties the knot with recursion-depth fuel. -/

def subEachW (recurV : Value → Option Value) : List Value → Option (List Value)
  | [] => some []
  | v :: rest => do
    let r ← recurV v
    let rs ← subEachW recurV rest
    pure (r :: rs)

def subListW (recurV : Value → Option Value)
    (resolve : List (String × Value) → Value × Bool) :
    List Value → Option (List Value)
  | [] => some []
  | item :: rest =>
    match item with
    | .dict es =>
      if hasReplaceKey es then
        match resolve es with
        | (.list l, true) => do
          -- extend and isinstance(resolved, list): splice, each item substituted
          let rs ← subEachW recurV l
          let tail ← subListW recurV resolve rest
          pure (rs ++ tail)
        | (r, _) => do
          let rv ← recurV r
          let tail ← subListW recurV resolve rest
          pure (rv :: tail)
      else do
        let rv ← recurV item
        let tail ← subListW recurV resolve rest
        pure (rv :: tail)
    | _ => do
      let rv ← recurV item
      let tail ← subListW recurV resolve rest
      pure (rv :: tail)

def subDictW (recurV : Value → Option Value) :
    List (String × Value) → Option (List (String × Value))
  | [] => some []
  | (k, v) :: rest => do
    let rv ← recurV v
    let tail ← subDictW recurV rest
    pure ((k, rv) :: tail)

/-- `substitute_value(value, config=..., posargs=..., environ=...)` with
recursion-depth fuel (`none` = `RecursionError`). -/
def subValueF : Nat → Value → List (String × Value) → Ctx → Option Value
  | 0, _, _, _ => Option.none
  | n + 1, v, cfg, ctx =>
    match v with
    | .str s => (subStringF n s cfg ctx).map Value.str
    | .list items =>
      (subListW (fun w => subValueF n w cfg ctx) (fun es => resolveInline es cfg ctx)
          items).map Value.list
    | .dict es =>
      if hasReplaceKey es then subValueF n (resolveInline es cfg ctx).1 cfg ctx
      else (subDictW (fun w => subValueF n w cfg ctx) es).map Value.dict
    | other => some other

/-- `substitute_config(config, posargs=..., environ=...)` (substitutions.py
lines 666-698): substitutes the whole tree with the same original config
as the reference context. -/
def subConfigF (n : Nat) (cfg : List (String × Value)) (ctx : Ctx) : Option Value :=
  subValueF n (.dict cfg) cfg ctx

/-! ### Configuration file discovery (`raw.py`)

The filesystem and the external TOML parser are abstracted: a directory
is a name plus the set of files it holds, and a file carries its raw
text (for the `setup.cfg` substring probes) together with the key set of
the parsed `[tool.tox]` table (what `tomllib.loads(...)["tool"]["tox"]`
would yield for the pyproject probes). -/

structure FileInfo where
  content : String
  toolToxKeys : List String

structure Directory where
  name : String
  files : List (String × FileInfo)

def findFile (d : Directory) (fname : String) : Option FileInfo :=
  (d.files.find? (fun kv => kv.1 == fname)).map (·.2)

/-- Python `"needle" in haystack` on character lists. -/
def containsSubL (hay needle : List Char) : Bool :=
  match hay with
  | [] => needle.isEmpty
  | _ :: rest => needle.isPrefixOf hay || containsSubL rest needle

/-- Python `"needle" in haystack` on strings. -/
def strContains (hay needle : String) : Bool := containsSubL hay.data needle.data

/-- The reader classes of `raw.py` that participate in discovery. -/
inductive Reader where
  | toxIni
  | setupCfg
  | pyprojectLegacyIni
  | pyprojectToml
  | toxToml
deriving DecidableEq

/-- The `can_read` classmethods (raw.py lines 160-250), evaluated on
`directory / filename` so the `path.name` check is against `fname`. -/
def canRead (r : Reader) (d : Directory) (fname : String) : Bool :=
  match r with
  | .toxIni => fname == "tox.ini" && (findFile d fname).isSome
  | .setupCfg =>
    fname == "setup.cfg" &&
      match findFile d fname with
      | some fi => strContains fi.content "[tox:tox]" || strContains fi.content "[testenv]"
      | Option.none => false
  | .pyprojectLegacyIni =>
    fname == "pyproject.toml" &&
      match findFile d fname with
      | some fi => fi.toolToxKeys.contains "legacy_tox_ini"
      | Option.none => false
  | .pyprojectToml =>
    fname == "pyproject.toml" &&
      match findFile d fname with
      | some fi => !fi.toolToxKeys.isEmpty && !fi.toolToxKeys.contains "legacy_tox_ini"
      | Option.none => false
  | .toxToml => fname == "tox.toml" && (findFile d fname).isSome

/-- `CONFIG_READERS` (raw.py lines 255-260): insertion-ordered dict from
filename to reader classes, highest priority first. -/
def CONFIG_READERS : List (String × List Reader) :=
  [("tox.ini", [.toxIni]),
   ("setup.cfg", [.setupCfg]),
   ("pyproject.toml", [.pyprojectLegacyIni, .pyprojectToml]),
   ("tox.toml", [.toxToml])]

/-- The nested probe loops of `find_config_file`. -/
def probeReaders (d : Directory) : List (String × List Reader) → Option (String × Reader)
  | [] => Option.none
  | (fname, rs) :: rest =>
    match rs.find? (fun r => canRead r d fname) with
    | some r => some (fname, r)
    | Option.none => probeReaders d rest

/-- `find_config_file(directory)` (raw.py lines 263-290); `Except.error`
carries the `FileNotFoundError` message, and `directory / filename` is
rendered as POSIX path join. -/
def findConfigFile (d : Directory) : Except String (String × Reader) :=
  match probeReaders d CONFIG_READERS with
  | some (fname, r) => .ok (d.name ++ "/" ++ fname, r)
  | Option.none =>
    .error ("No tox configuration file found in " ++ d.name ++
      ". Searched for: tox.ini, setup.cfg, pyproject.toml, tox.toml")

/-! ### Spec-side reference definitions

These do not embed the source; they state what the specification's words
describe, to be compared with the embedded code. -/

/-- Spec §4.1 brace-locating scan, where "a backslash followed by any
character is consumed as one escaped unit with no effect on nesting
depth": identical to `fsGoF` except that the top-level escape consumes a
backslash before any character, not only before an opening brace. -/
def specFsGoF : Nat → List Char → Nat → List (Nat × Nat × String)
  | 0, _, _ => []
  | _ + 1, [], _ => []
  | fuel + 1, '\\' :: _ :: rest2, i => specFsGoF fuel rest2 (i + 2)
  | fuel + 1, '{' :: rest2, i =>
      match fmbGo rest2 (i + 1) 1 with
      | some (e, after) =>
          (i, e + 1, String.mk (rest2.take (e - (i + 1)))) :: specFsGoF fuel after (e + 1)
      | Option.none => specFsGoF fuel rest2 (i + 1)
  | fuel + 1, _ :: rest2, i => specFsGoF fuel rest2 (i + 1)

/-- The spec §4.1 locator over a string. -/
def specFindSubstitutions (s : String) : List (Nat × Nat × String) :=
  specFsGoF s.data.length s.data 0

/-- Spec-side clamp of a signed index into `[0, n]`: negative indices
count from the end. -/
def specClamp (n : Nat) (i : Int) : Nat :=
  if i < 0 then ((n : Int) + i).toNat else min i.toNat n

/-- The `posargs[...]` resolution rule as the spec states it: an
interior with `:` is a half-open slice (elements with clamped positions
in `[lo, hi)`, a parse failure on either non-empty side is Unresolved);
an interior without `:` is a single signed index — in range yields that
element (negatives from the end), out of range yields the empty string,
a parse failure is Unresolved. -/
def specPosargsIndexed (pa : List String) (ie : String) : Option String :=
  let d := ie.data
  if ':' ∈ d then
    let p := splitFirstL d ':'
    if (p.1 ≠ [] ∧ pyInt? p.1 = Option.none) ∨ (p.2 ≠ [] ∧ pyInt? p.2 = Option.none) then
      Option.none
    else
      let lo := match pyInt? p.1 with
        | some i => specClamp pa.length i
        | Option.none => 0
      let hi := match pyInt? p.2 with
        | some i => specClamp pa.length i
        | Option.none => pa.length
      some (joinSp ((pa.take hi).drop lo))
  else
    match pyInt? d with
    | Option.none => Option.none
    | some i =>
      if 0 ≤ i ∧ i < (pa.length : Int) then some (pa.getD i.toNat "")
      else if i < 0 ∧ -i ≤ (pa.length : Int) then
        some (pa.getD (pa.length - (-i).toNat) "")
      else some ""

/-! ### Concrete inputs shared by the closed theorems below -/

/-- A context with no positional arguments, an empty environment, a
non-interactive stdin and the POSIX separators. -/
def baseCtx : Ctx := ⟨[], [], false, ":", "/"⟩

/-- `baseCtx` with positional arguments. -/
def posCtx (pa : List String) : Ctx := ⟨pa, [], false, ":", "/"⟩

/-- A configuration whose key `a` refers back to itself through an
`env` default: `config = {"a": "{env:X:{a}}"}`. -/
def selfRefCfg : List (String × Value) := [("a", Value.str "{env:X:{a}}")]

/-! ## Helper lemmas -/

/-- A successful inner brace scan never reports a closing index before
its starting position. -/
theorem fmbGo_start_le : ∀ (rest : List Char) (i d : Nat), 0 < d →
    ∀ p, fmbGo rest i d = some p → i ≤ p.1 := by
  intro rest i d
  induction rest, i, d using fmbGo.induct with
  | case1 rest i => intro h; omega
  | case2 i d => intro _ p h; simp [fmbGo] at h
  | case3 c rest2 i d ih =>
      intro _ p h
      have := ih (by omega) p h
      omega
  | case4 i d ih =>
      intro _ p h
      rw [show fmbGo ['\\'] i (d+1) = fmbGo [] (i+1) (d+1) from rfl] at h
      simp [fmbGo] at h
  | case5 rest2 i d ih =>
      intro _ p h
      have := ih (by omega) p h
      omega
  | case6 rest2 i d ih =>
      intro _ p h
      rw [show fmbGo ('}' :: rest2) i (d+1) = fmbGo rest2 (i+1) d from rfl] at h
      rcases d with _ | d'
      · obtain ⟨e, after⟩ := p
        simp [fmbGo, Prod.mk.injEq] at h
        omega
      · have := ih (by omega) p h
        omega
  | case7 c rest2 i d h1 h2 h3 h4 ih =>
      intro _ p h
      rw [show fmbGo (c :: rest2) i (d+1) = fmbGo rest2 (i+1) (d+1) from
        by simp only [fmbGo]] at h
      have := ih (by omega) p h
      omega

/-- Every span the scan reports starts at or after the scan position and
ends strictly after its start. -/
theorem fsGoF_mem_lb : ∀ (fuel : Nat) (rest : List Char) (i : Nat),
    ∀ sp ∈ fsGoF fuel rest i, i ≤ sp.1 ∧ sp.1 < sp.2.1 := by
  intro fuel rest i
  induction fuel, rest, i using fsGoF.induct with
  | case1 rest i => intro sp h; simp [fsGoF] at h
  | case2 fuel i => intro sp h; simp [fsGoF] at h
  | case3 fuel rest2 i ih =>
      intro sp h
      rw [show fsGoF (fuel+1) ('\\' :: '{' :: rest2) i = fsGoF fuel rest2 (i+2) from rfl] at h
      have := ih sp h
      omega
  | case4 fuel rest2 i e after hm ih =>
      intro sp h
      rw [show fsGoF (fuel+1) ('{' :: rest2) i
          = (i, e + 1, String.mk (rest2.take (e - (i + 1)))) :: fsGoF fuel after (e + 1) from by
        rw [show fsGoF (fuel+1) ('{' :: rest2) i
            = (match fmbGo rest2 (i + 1) 1 with
               | some (e, after) =>
                   (i, e + 1, String.mk (rest2.take (e - (i + 1)))) :: fsGoF fuel after (e + 1)
               | Option.none => fsGoF fuel rest2 (i + 1)) from rfl]
        rw [hm]] at h
      have hle := fmbGo_start_le rest2 (i+1) 1 (by omega) (e, after) hm
      rcases List.mem_cons.mp h with h | h
      · subst h; constructor
        · omega
        · show i < e + 1
          omega
      · have := ih sp h
        omega
  | case5 fuel rest2 i hm ih =>
      intro sp h
      rw [show fsGoF (fuel+1) ('{' :: rest2) i = fsGoF fuel rest2 (i+1) from by
        rw [show fsGoF (fuel+1) ('{' :: rest2) i
            = (match fmbGo rest2 (i + 1) 1 with
               | some (e, after) =>
                   (i, e + 1, String.mk (rest2.take (e - (i + 1)))) :: fsGoF fuel after (e + 1)
               | Option.none => fsGoF fuel rest2 (i + 1)) from rfl]
        rw [hm]] at h
      have := ih sp h
      omega
  | case6 fuel c rest2 i h1 h2 ih =>
      intro sp h
      rw [show fsGoF (fuel+1) (c :: rest2) i = fsGoF fuel rest2 (i+1) from by
        simp only [fsGoF]] at h
      have := ih sp h
      omega

/-- The spans the scan reports are ordered and non-overlapping: each
span's end precedes the next span's start. -/
theorem fsGoF_pairwise : ∀ (fuel : Nat) (rest : List Char) (i : Nat),
    List.Pairwise (fun a b => a.2.1 ≤ b.1) (fsGoF fuel rest i) := by
  intro fuel rest i
  induction fuel, rest, i using fsGoF.induct with
  | case1 rest i => simp [fsGoF]
  | case2 fuel i => simp [fsGoF]
  | case3 fuel rest2 i ih =>
      rw [show fsGoF (fuel+1) ('\\' :: '{' :: rest2) i = fsGoF fuel rest2 (i+2) from rfl]
      exact ih
  | case4 fuel rest2 i e after hm ih =>
      rw [show fsGoF (fuel+1) ('{' :: rest2) i
          = (i, e + 1, String.mk (rest2.take (e - (i + 1)))) :: fsGoF fuel after (e + 1) from by
        rw [show fsGoF (fuel+1) ('{' :: rest2) i
            = (match fmbGo rest2 (i + 1) 1 with
               | some (e, after) =>
                   (i, e + 1, String.mk (rest2.take (e - (i + 1)))) :: fsGoF fuel after (e + 1)
               | Option.none => fsGoF fuel rest2 (i + 1)) from rfl]
        rw [hm]]
      refine List.pairwise_cons.mpr ⟨?_, ih⟩
      intro sp hsp
      have := fsGoF_mem_lb fuel after (e + 1) sp hsp
      show e + 1 ≤ sp.1
      omega
  | case5 fuel rest2 i hm ih =>
      rw [show fsGoF (fuel+1) ('{' :: rest2) i = fsGoF fuel rest2 (i+1) from by
        rw [show fsGoF (fuel+1) ('{' :: rest2) i
            = (match fmbGo rest2 (i + 1) 1 with
               | some (e, after) =>
                   (i, e + 1, String.mk (rest2.take (e - (i + 1)))) :: fsGoF fuel after (e + 1)
               | Option.none => fsGoF fuel rest2 (i + 1)) from rfl]
        rw [hm]]
      exact ih
  | case6 fuel c rest2 i h1 h2 ih =>
      rw [show fsGoF (fuel+1) (c :: rest2) i = fsGoF fuel rest2 (i+1) from by
        simp only [fsGoF]]
      exact ih

/-- Inside a span, a backslash and the following character are consumed
together without changing the depth. -/
theorem fmbGo_escape_step : ∀ (c : Char) (rest : List Char) (i d : Nat), 0 < d →
    fmbGo ('\\' :: c :: rest) i d = fmbGo rest (i + 2) d := by
  intro c rest i d hd
  rcases d with _ | d'
  · omega
  · rfl

/-- At top level, a backslash immediately followed by an opening brace
is consumed as one unit. -/
theorem fsGoF_escape_brace : ∀ (fuel : Nat) (rest : List Char) (i : Nat),
    fsGoF (fuel + 1) ('\\' :: '{' :: rest) i = fsGoF fuel rest (i + 2) := by
  intro fuel rest i; rfl

/-- At top level, a backslash before any other character is an ordinary
character: the scan advances one position. -/
theorem fsGoF_backslash_ordinary : ∀ (fuel : Nat) (c : Char) (rest : List Char) (i : Nat),
    c ≠ '{' →
    fsGoF (fuel + 1) ('\\' :: c :: rest) i = fsGoF fuel (c :: rest) (i + 1) := by
  intro fuel c rest i hc
  rw [fsGoF.eq_def]
  split <;> simp_all

/-- An opener with no matching close yields no span; scanning resumes
just after that opener. -/
theorem fsGoF_unmatched_opener : ∀ (fuel : Nat) (rest : List Char) (i : Nat),
    fmbGo rest (i + 1) 1 = Option.none →
    fsGoF (fuel + 1) ('{' :: rest) i = fsGoF fuel rest (i + 1) := by
  intro fuel rest i hm
  rw [show fsGoF (fuel+1) ('{' :: rest) i
      = (match fmbGo rest (i + 1) 1 with
         | some (e, after) =>
             (i, e + 1, String.mk (rest.take (e - (i + 1)))) :: fsGoF fuel after (e + 1)
         | Option.none => fsGoF fuel rest (i + 1)) from rfl]
  rw [hm]

/-- When the round's span list is empty the rewrite loop returns its
input after the second iteration's unchanged-value check. -/
theorem subRoundsW_fixed : ∀ (single : String → Option String) (k : Nat) (v : String),
    findSubstitutions v = [] → subRoundsW single (k + 2) Option.none v = some v := by
  intro single k v h
  have h1 : applySpansW single ((findSubstitutions v).reverse) v = some v := by
    rw [h]; rfl
  simp only [subRoundsW, h1]
  simp

/-- Resolving the expression `env:X:{a}` substitutes the default `{a}`
first; if that recursive substitution diverges, so does the whole
resolution. -/
theorem subSingleW_selfref_none (recur : String → Option String) (ctx : Ctx)
    (h : recur "{a}" = Option.none) :
    subSingleW recur "env:X:{a}" selfRefCfg ctx = Option.none := by
  show Option.map _ (recur "{a}") = Option.none
  rw [h]
  rfl

/-- Normalising a clamped slice bound from the code's Int form to the
spec's Nat form. -/
theorem specClamp_toNat (n : Nat) (i : Int) :
    (if i < 0 then max ((n : Int) + i) 0 else min i (n : Int)).toNat = specClamp n i := by
  unfold specClamp
  rcases lt_or_le i 0 with h | h
  · rw [if_pos h, if_pos h]
    rcases le_or_lt ((n : Int) + i) 0 with h2 | h2
    · rw [max_eq_right h2]; omega
    · rw [max_eq_left (le_of_lt h2)]
  · rw [if_neg (not_lt.mpr h), if_neg (not_lt.mpr h)]
    rcases le_or_lt i (n : Int) with h2 | h2
    · rw [min_eq_left h2]; omega
    · rw [min_eq_right (le_of_lt h2)]; omega

theorem clampI_nonneg (n : Nat) (i : Int) :
    0 ≤ (if i < 0 then max ((n : Int) + i) 0 else min i (n : Int)) := by
  rcases lt_or_le i 0 with h | h
  · rw [if_pos h]; exact le_max_right _ _
  · rw [if_neg (not_lt.mpr h)]
    exact le_min h (Int.ofNat_nonneg n)

/-- The code's clamped slice equals the spec's "take to the upper bound,
drop the lower bound" half-open slice. -/
theorem pySlice_take_drop : ∀ (pa : List String) (s e : Option Int),
    pySlice pa s e =
      ((pa.take (match e with
          | some i => specClamp pa.length i
          | Option.none => pa.length)).drop
        (match s with
          | some i => specClamp pa.length i
          | Option.none => 0)) := by
  intro pa s e
  rcases s with _ | i <;> rcases e with _ | j
  · dsimp only [pySlice]
    rw [List.drop_take]
    norm_num
  · dsimp only [pySlice]
    rw [List.drop_take]
    have h3 := specClamp_toNat pa.length j
    have h4 := clampI_nonneg pa.length j
    congr 1
    omega
  · dsimp only [pySlice]
    rw [List.drop_take]
    have h1 := specClamp_toNat pa.length i
    have h2 := clampI_nonneg pa.length i
    congr 1
    · omega
    · rw [h1]
  · dsimp only [pySlice]
    rw [List.drop_take]
    have h1 := specClamp_toNat pa.length i
    have h2 := clampI_nonneg pa.length i
    have h3 := specClamp_toNat pa.length j
    have h4 := clampI_nonneg pa.length j
    congr 1
    · omega
    · rw [h1]

/-- A kind string beginning with a literal `posargs[` is none of the
kinds checked before the posargs branch. -/
theorem startsWith_posargs_ne (k : String)
    (h : startsWithL k.data ("posargs[".data) = true) :
    k ≠ "pathsep" ∧ k ≠ "sep" ∧ k ≠ "env" ∧ k ≠ "posargs" := by
  refine ⟨?_, ?_, ?_, ?_⟩ <;> rintro rfl <;> exact absurd h (by decide)

/-- Reduction of `_substitute_single` to its posargs branch for a parsed
kind beginning with `posargs[`. -/
theorem subSingleW_posargs_branch (recur : String → Option String) (expr k : String)
    (args : List String) (cfg : List (String × Value)) (ctx : Ctx)
    (hbr : startsWithL expr.data ['['] = false)
    (hp : parseSubstitution expr = (k, args))
    (hpre : startsWithL k.data ("posargs[".data) = true) :
    subSingleW recur expr cfg ctx =
      if endsWithBr k.data then
        match substitutePosargsIndexed ctx.posargs
            (String.mk ((k.data.drop 8).dropLast)) with
        | some r => some r
        | Option.none => some (braced expr)
      else
        match args with
        | [] => some (substitutePosargsStr ctx.posargs Option.none)
        | d :: _ => (recur d).map (fun dv => substitutePosargsStr ctx.posargs (some dv)) := by
  obtain ⟨h1, h2, h3, h4⟩ := startsWith_posargs_ne k hpre
  simp only [subSingleW, hbr, hp, Bool.false_eq_true, if_false, h1, h2, h3, h4,
    hpre, if_true, if_false, false_or, or_true, true_and]
  rcases h : endsWithBr k.data with _ | _
  · simp only [h, Bool.false_eq_true, if_false]
    rcases args with _ | ⟨d, rest⟩ <;> rfl
  · simp [h]

/-! ## Claim theorems -/

/-- C1: the claim says that for a mapping with a `replace` key whose tag
is not posargs/env/ref, `substitute_value` returns the spec mapping
unchanged and never raises.  The resolver does return the spec unchanged
with `extend=false` (second conjunct), but `substitute_value` then
recursively substitutes that unchanged result, re-entering itself on the
same spec-shaped mapping forever: for every recursion budget the run
fails to return (first conjunct), so in Python the call raises
`RecursionError` instead of returning the mapping. -/
theorem C1_unknown_replace_tag_diverges :
    (∀ (n : Nat) (cfg : List (String × Value)) (ctx : Ctx),
      subValueF n (.dict [("replace", .str "frobnicate")]) cfg ctx = Option.none) ∧
    (∀ (cfg : List (String × Value)) (ctx : Ctx),
      resolveInline [("replace", .str "frobnicate")] cfg ctx
        = (.dict [("replace", .str "frobnicate")], false)) := by
  constructor
  · intro n
    induction n with
    | zero => intro cfg ctx; rfl
    | succ n ih =>
        intro cfg ctx
        show subValueF n (Value.dict [("replace", Value.str "frobnicate")]) cfg ctx
          = Option.none
        exact ih cfg ctx
  · intro cfg ctx
    rfl

/-- C2 counterexample: `substitute_string` is not idempotent on its own
output.  With `config = {"x": "y"}`, substituting `\x7bx}` written with an
escaped opening brace yields the literal `{x}` (the escape is stripped
after the rounds), and substituting that output again resolves the now
unescaped placeholder to `y`. -/
theorem C2_counterexample_escape_stripping :
    subStringF 2 "\\{x}" [("x", Value.str "y")] baseCtx = some "{x}" ∧
    subStringF 2 "{x}" [("x", Value.str "y")] baseCtx = some "y" ∧
    ("y" : String) ≠ "{x}" := ⟨rfl, rfl, by decide⟩

/-- C2 (amended): re-substituting a fully resolved string — one in which
the scan finds no placeholder spans and escape stripping is the identity
— returns it unchanged, for any configuration, arguments, environment
and positive recursion budget. -/
theorem C2_idempotent_on_fully_resolved :
    ∀ (n : Nat) (s : String) (cfg : List (String × Value)) (ctx : Ctx),
    findSubstitutions s = [] → stripEscapes s.data = s.data →
    subStringF (n + 1) s cfg ctx = some s := by
  intro n s cfg ctx h1 h2
  have hr := subRoundsW_fixed
    (fun e => subSingleW (fun str => subStringF n str cfg ctx) e cfg ctx) 8 s h1
  rw [show (8 + 2 : Nat) = 10 from rfl] at hr
  show (subRoundsW (fun e => subSingleW (fun str => subStringF n str cfg ctx) e cfg ctx)
      10 Option.none s).map (fun r => String.mk (stripEscapes r.data)) = some s
  rw [hr]
  show some (String.mk (stripEscapes s.data)) = some s
  rw [h2]

theorem C2_idempotent_on_fully_resolved_witness :
    subStringF 1 "hello" [] baseCtx = some "hello" :=
  C2_idempotent_on_fully_resolved 0 "hello" [] baseCtx rfl rfl

/-- C3 counterexample: with `replace=posargs`, a list default, no
`extend` key, and non-empty posargs, the resolver returns the posargs as
a list but with the extend flag `false` — the spec's own flag — not
forced to `true` as the claim states. -/
theorem C3_counterexample_extend_not_forced :
    resolveInline [("replace", .str "posargs"), ("default", .list [.str "a"])] []
        (posCtx ["x"])
      = (.list [.str "x"], false) ∧
    (resolveInline [("replace", .str "posargs"), ("default", .list [.str "a"])] []
        (posCtx ["x"])).2 ≠ true := ⟨rfl, by decide⟩

/-- C3 (amended): for `replace=posargs` with non-empty posargs, when
`extend` was requested or the default is a list the resolution returns
the posargs sequence as a list with the spec's own extend flag (so it is
spliced only when `extend` was actually requested); otherwise it returns
the space-joined posargs with `extend=false`. -/
theorem C3_inline_posargs_nonempty_resolution :
    ∀ (es cfg : List (String × Value)) (ctx : Ctx),
    pyGet es "replace" = some (.str "posargs") →
    ctx.posargs ≠ [] →
    ((truthy ((pyGet es "extend").getD (.bool false))
        || isListV ((pyGet es "default").getD .none)) = true →
      resolveInline es cfg ctx
        = (.list (ctx.posargs.map .str), truthy ((pyGet es "extend").getD (.bool false)))) ∧
    ((truthy ((pyGet es "extend").getD (.bool false))
        || isListV ((pyGet es "default").getD .none)) = false →
      resolveInline es cfg ctx = (.str (joinSp ctx.posargs), false)) := by
  intro es cfg ctx hrep hpa
  rcases hpos : ctx.posargs with _ | ⟨p, ps⟩
  · exact absurd hpos hpa
  constructor
  · intro hcond
    unfold resolveInline
    rw [hrep]
    simp only [Option.getD_some, hpos, hcond, if_true]
  · intro hcond
    unfold resolveInline
    rw [hrep]
    simp only [Option.getD_some, hpos, hcond, Bool.false_eq_true, if_false]
    have : truthy ((pyGet es "extend").getD (.bool false)) = false := by
      rcases h : truthy ((pyGet es "extend").getD (.bool false)) with _ | _
      · rfl
      · rw [h] at hcond; simp at hcond
    rw [this]

theorem C3_inline_posargs_nonempty_resolution_witness :
    resolveInline [("replace", .str "posargs"), ("extend", .bool true)] []
      (posCtx ["u", "v"]) = (.list [.str "u", .str "v"], true) :=
  (C3_inline_posargs_nonempty_resolution
    [("replace", .str "posargs"), ("extend", .bool true)] []
    (posCtx ["u", "v"]) rfl (by decide)).1 rfl

/-- C4: every reference lookup reads from the original pre-substitution
configuration.  `substitute_config` passes the same config as both the
tree being transformed and the reference context (first conjunct), and
the recursive walk threads that reference context unchanged into string
leaves, list elements, inline-spec resolution and dict entries (next
three conjuncts — the same `cfg` appears on both sides).  The final
conjunct exhibits the behavioural consequence: in
`{"a": "\x7bp}", "p": "v", "b": "{a}"}` the reference `{a}` in `b` sees
the raw text `\x7bp}` of `a`, so `b` resolves to the literal `{p}` and
not to `v`, which a lookup into the partially substituted output would
have produced. -/
theorem C4_reference_context_frozen :
    (∀ (n : Nat) (cfg : List (String × Value)) (ctx : Ctx),
      subConfigF n cfg ctx = subValueF n (.dict cfg) cfg ctx) ∧
    (∀ (n : Nat) (s : String) (cfg : List (String × Value)) (ctx : Ctx),
      subValueF (n + 1) (.str s) cfg ctx = (subStringF n s cfg ctx).map Value.str) ∧
    (∀ (n : Nat) (items : List Value) (cfg : List (String × Value)) (ctx : Ctx),
      subValueF (n + 1) (.list items) cfg ctx
        = (subListW (fun w => subValueF n w cfg ctx)
            (fun es => resolveInline es cfg ctx) items).map Value.list) ∧
    (∀ (n : Nat) (es cfg : List (String × Value)) (ctx : Ctx),
      hasReplaceKey es = false →
      subValueF (n + 1) (.dict es) cfg ctx
        = (subDictW (fun w => subValueF n w cfg ctx) es).map Value.dict) ∧
    (subConfigF 4 [("a", .str "\\{p}"), ("p", .str "v"), ("b", .str "{a}")] baseCtx
      = some (.dict [("a", .str "{p}"), ("p", .str "v"), ("b", .str "{p}")])) := by
  refine ⟨fun n cfg ctx => rfl, fun n s cfg ctx => rfl, fun n items cfg ctx => rfl,
    fun n es cfg ctx h => ?_, rfl⟩
  simp only [subValueF, h, Bool.false_eq_true, if_false]

theorem C4_reference_context_frozen_witness :
    subValueF 1 (.dict [("k", .str "x")]) [] baseCtx
      = (subDictW (fun w => subValueF 0 w [] baseCtx) [("k", .str "x")]).map Value.dict :=
  C4_reference_context_frozen.2.2.2.1 0 [("k", .str "x")] [] baseCtx rfl

/-- C5: for an expression parsed to the `env` kind (and not a section
reference), no arguments yield the unresolved literal placeholder; with
a name, the default (when present) is recursively substituted first and
the result is the environment value when the name is bound, else the
substituted default, else the empty string — never the literal
placeholder. -/
theorem C5_env_kind_resolution :
    ∀ (recur : String → Option String) (expr : String) (args : List String)
    (cfg : List (String × Value)) (ctx : Ctx),
    startsWithL expr.data ['['] = false →
    parseSubstitution expr = ("env", args) →
    (args = [] → subSingleW recur expr cfg ctx = some ("\x7b" ++ expr ++ "\x7d")) ∧
    (∀ key rest, args = key :: rest →
      subSingleW recur expr cfg ctx =
        match lookupStr ctx.environ key, rest with
        | some v, [] => some v
        | some v, d :: _ => (recur d).map (fun _ => v)
        | Option.none, [] => some ""
        | Option.none, d :: _ => recur d) := by
  intro recur expr args cfg ctx hbr hp
  have hexpand : subSingleW recur expr cfg ctx =
      match args with
      | [] => some (braced expr)
      | key :: [] => some (substituteEnvStr key Option.none ctx.environ)
      | key :: d :: _ => (recur d).map (fun dv => substituteEnvStr key (some dv) ctx.environ) := by
    simp only [subSingleW, hbr, hp, Bool.false_eq_true, if_false]
    simp only [show ("env" = "pathsep") = False from by simp,
      show ("env" = "sep") = False from by simp, if_true, if_false]
    rcases args with _ | ⟨key, _ | ⟨d, rest⟩⟩ <;> rfl
  constructor
  · intro ha; subst ha; rw [hexpand]; rfl
  · intro key rest ha; subst ha
    rw [hexpand]
    rcases rest with _ | ⟨d, rest'⟩
    · simp only [substituteEnvStr]
      rcases h : lookupStr ctx.environ key with _ | v <;> rfl
    · simp only [substituteEnvStr]
      rcases h : lookupStr ctx.environ key with _ | v
      · simp [Option.map_id]
      · rfl

theorem C5_env_kind_resolution_witness :
    subSingleW (fun s => subStringF 1 s [] baseCtx) "env:K:fallback" []
      baseCtx = some "fallback" := by
  have h := (C5_env_kind_resolution (fun s => subStringF 1 s [] baseCtx) "env:K:fallback"
    ["K", "fallback"] [] baseCtx rfl rfl).2 "K" ["fallback"] rfl
  rw [h]
  rfl

/-- C6: the indexed-posargs resolver agrees everywhere with the spec's
rule (first conjunct): a `:` interior is the half-open clamped slice
with parse failures on non-empty sides Unresolved, a plain interior is a
single signed index with out-of-range giving the empty string and a
parse failure Unresolved.  The second conjunct adds the Unresolved
behaviour at the `_substitute_single` level: when the indexed resolver
fails, the literal placeholder is preserved. -/
theorem C6_posargs_indexed_resolution :
    (∀ (pa : List String) (ie : String),
      substitutePosargsIndexed pa ie = specPosargsIndexed pa ie) ∧
    (∀ (recur : String → Option String) (expr k : String)
      (args : List String) (cfg : List (String × Value)) (ctx : Ctx),
      startsWithL expr.data ['['] = false →
      parseSubstitution expr = (k, args) →
      startsWithL k.data ("posargs[".data) = true →
      endsWithBr k.data = true →
      substitutePosargsIndexed ctx.posargs (String.mk ((k.data.drop 8).dropLast))
        = Option.none →
      subSingleW recur expr cfg ctx = some (braced expr)) := by
  constructor
  · intro pa ie
    unfold substitutePosargsIndexed specPosargsIndexed
    by_cases hc : ':' ∈ ie.data
    · rw [if_pos hc, if_pos hc]
      have g1 : pyInt? ([] : List Char) = Option.none := rfl
      by_cases e1 : (splitFirstL ie.data ':').1 = []
      · by_cases e2 : (splitFirstL ie.data ':').2 = []
        · simp [e1, e2, g1, pySlice_take_drop]
        · rcases hpj : pyInt? (splitFirstL ie.data ':').2 with _ | j
          · simp [e1, e2, hpj]
          · simp [e1, e2, g1, hpj, pySlice_take_drop]
      · rcases hpi : pyInt? (splitFirstL ie.data ':').1 with _ | i
        · simp [e1, hpi]
        · by_cases e2 : (splitFirstL ie.data ':').2 = []
          · simp [e1, e2, g1, hpi, pySlice_take_drop]
          · rcases hpj : pyInt? (splitFirstL ie.data ':').2 with _ | j
            · simp [e1, e2, hpi, hpj]
            · simp [e1, e2, hpi, hpj, pySlice_take_drop]
    · rw [if_neg hc, if_neg hc]
      rcases hpi : pyInt? ie.data with _ | idx
      · rfl
      · dsimp only
        rcases le_or_lt 0 idx with hs | hs
        · by_cases hlt : idx < (pa.length : Int)
          · rw [if_pos ⟨by omega, hlt⟩, if_pos ⟨hs, hlt⟩]
            unfold pyIndex
            rw [if_neg (by omega)]
          · rw [if_neg (by omega), if_neg (by omega), if_neg (by omega)]
        · by_cases hb : -((pa.length : Int)) ≤ idx
          · rw [if_pos ⟨hb, by omega⟩, if_neg (by omega), if_pos ⟨hs, by omega⟩]
            unfold pyIndex
            rw [if_pos hs]
            rw [show (idx + (pa.length : Int)).toNat = pa.length - (-idx).toNat from by omega]
          · rw [if_neg (by omega), if_neg (by omega), if_neg (by omega)]
  · intro recur expr k args cfg ctx hbr hp hpre hend hnone
    rw [subSingleW_posargs_branch recur expr k args cfg ctx hbr hp hpre]
    simp only [hend, if_true, hnone]

theorem C6_posargs_indexed_resolution_witness :
    substitutePosargsIndexed ["a", "b", "c"] "1:" = specPosargsIndexed ["a", "b", "c"] "1:" ∧
    subSingleW (fun s => subStringF 1 s [] (posCtx ["a"])) "posargs[x]" [] (posCtx ["a"])
      = some "{posargs[x]}" :=
  ⟨C6_posargs_indexed_resolution.1 ["a", "b", "c"] "1:",
   C6_posargs_indexed_resolution.2 (fun s => subStringF 1 s [] (posCtx ["a"]))
     "posargs[x]" "posargs[x]" [] [] (posCtx ["a"]) rfl rfl rfl rfl rfl⟩

/-- C7: the claim says `substitute_string` terminates without raising on
every input, even self-referential placeholders.  It does not: with
`config = {"a": "{env:X:{a}}"}` the input `{a}` resolves in round one to
`{env:X:{a}}`, whose `env` default `{a}` is recursively substituted by an
identical call to `substitute_string` before the environment is even
consulted, and so on forever: for every recursion budget the embedded
run fails to return, so the Python call raises `RecursionError`. -/
theorem C7_self_referential_placeholder_diverges :
    ∀ (n : Nat) (ctx : Ctx), subStringF n "{a}" selfRefCfg ctx = Option.none := by
  intro n
  induction n with
  | zero => intro ctx; rfl
  | succ n ih =>
      intro ctx
      have h1 : subSingleW (fun s => subStringF n s selfRefCfg ctx) "env:X:{a}" selfRefCfg ctx
          = Option.none := subSingleW_selfref_none _ ctx (ih ctx)
      calc subStringF (n + 1) "{a}" selfRefCfg ctx
          = (subRoundsW (fun e => subSingleW (fun s => subStringF n s selfRefCfg ctx) e selfRefCfg ctx)
              9 (some "{a}") "{env:X:{a}}").map (fun r => String.mk (stripEscapes r.data)) := rfl
        _ = ((match applySpansW (fun e => subSingleW (fun s => subStringF n s selfRefCfg ctx) e selfRefCfg ctx)
                [(0, 11, "env:X:{a}")] "{env:X:{a}}" with
              | some v2 => subRoundsW (fun e => subSingleW (fun s => subStringF n s selfRefCfg ctx) e selfRefCfg ctx)
                  8 (some "{env:X:{a}}") v2
              | Option.none => Option.none) : Option String).map
                (fun r => String.mk (stripEscapes r.data)) := rfl
        _ = Option.none := by
              rw [show applySpansW (fun e => subSingleW (fun s => subStringF n s selfRefCfg ctx) e selfRefCfg ctx)
                    [(0, 11, "env:X:{a}")] "{env:X:{a}}" = Option.none from by
                simp only [applySpansW, h1]]
              rfl

/-- C8 counterexample: the claim says a backslash followed by any
character is one escaped unit in the brace-locating scan.  On the text
backslash-backslash-brace-a-brace the code treats the second backslash
as escaping the brace (its top-level escape only recognises a backslash
directly before an opening brace) and finds no span, while the
spec-modelled scanner with a generic escape consumes the two backslashes
as one unit and finds the span `(2, 5, a)`. -/
theorem C8_counterexample_top_level_escape :
    findSubstitutions "\\\\{a}" = [] ∧
    specFindSubstitutions "\\\\{a}" = [(2, 5, "a")] ∧
    ([] : List (Nat × Nat × String)) ≠ [(2, 5, "a")] :=
  ⟨rfl, rfl, by decide⟩

/-- C8 (amended): inside a span a backslash and the following character
are consumed as one unit with no effect on depth (1); at top level only
a backslash directly before an opening brace is consumed as an escaped
unit (2), a backslash before any other character being an ordinary
character (3); an opener whose depth never returns to zero yields no
span and scanning resumes after it (4); and the returned spans have
positive extent and are non-overlapping, ordered left to right (5). -/
theorem C8_brace_scan_properties :
    (∀ (c : Char) (rest : List Char) (i d : Nat), 0 < d →
      fmbGo ('\\' :: c :: rest) i d = fmbGo rest (i + 2) d) ∧
    (∀ (fuel : Nat) (rest : List Char) (i : Nat),
      fsGoF (fuel + 1) ('\\' :: '{' :: rest) i = fsGoF fuel rest (i + 2)) ∧
    (∀ (fuel : Nat) (c : Char) (rest : List Char) (i : Nat), c ≠ '{' →
      fsGoF (fuel + 1) ('\\' :: c :: rest) i = fsGoF fuel (c :: rest) (i + 1)) ∧
    (∀ (fuel : Nat) (rest : List Char) (i : Nat), fmbGo rest (i + 1) 1 = Option.none →
      fsGoF (fuel + 1) ('{' :: rest) i = fsGoF fuel rest (i + 1)) ∧
    (∀ (s : String), List.Pairwise (fun a b => a.2.1 ≤ b.1) (findSubstitutions s) ∧
      ∀ sp ∈ findSubstitutions s, sp.1 < sp.2.1) :=
  ⟨fmbGo_escape_step, fsGoF_escape_brace, fsGoF_backslash_ordinary, fsGoF_unmatched_opener,
   fun s => ⟨fsGoF_pairwise s.data.length s.data 0,
     fun sp h => (fsGoF_mem_lb s.data.length s.data 0 sp h).2⟩⟩

theorem C8_brace_scan_properties_witness :
    fmbGo ['\\', 'a', '}'] 1 1 = fmbGo ['}'] 3 1 ∧
    fsGoF 3 ['\\', 'a'] 0 = fsGoF 2 ['a'] 1 ∧
    fsGoF 3 ['{', 'x'] 0 = fsGoF 2 ['x'] 1 :=
  ⟨C8_brace_scan_properties.1 'a' ['}'] 1 1 (by decide),
   C8_brace_scan_properties.2.2.1 2 'a' [] 0 (by decide),
   C8_brace_scan_properties.2.2.2.1 2 ['x'] 0 rfl⟩

/-- C9: `find_config_file` returns the first accepting (path, reader)
pair in the fixed priority order tox.ini, setup.cfg, pyproject.toml with
the legacy embedded-INI reader before the native-TOML reader, then
tox.toml; when none accepts it reports a not-found error naming the
searched directory and the attempted filenames.  The second conjunct
spells out that an existing setup.cfg is accepted exactly when its text
contains a tox-relevant section marker. -/
theorem C9_config_file_discovery :
    ∀ (d : Directory),
    (findConfigFile d =
      match ([("tox.ini", Reader.toxIni), ("setup.cfg", Reader.setupCfg),
              ("pyproject.toml", Reader.pyprojectLegacyIni),
              ("pyproject.toml", Reader.pyprojectToml),
              ("tox.toml", Reader.toxToml)].find?
            (fun c => canRead c.2 d c.1)) with
      | some c => .ok (d.name ++ "/" ++ c.1, c.2)
      | Option.none =>
        .error ("No tox configuration file found in " ++ d.name ++
          ". Searched for: tox.ini, setup.cfg, pyproject.toml, tox.toml")) ∧
    (∀ fi, findFile d "setup.cfg" = some fi →
      canRead .setupCfg d "setup.cfg"
        = (strContains fi.content "[tox:tox]" || strContains fi.content "[testenv]")) := by
  intro d
  constructor
  · unfold findConfigFile probeReaders CONFIG_READERS
    rcases h1 : canRead .toxIni d "tox.ini" <;>
      rcases h2 : canRead .setupCfg d "setup.cfg" <;>
      rcases h3 : canRead .pyprojectLegacyIni d "pyproject.toml" <;>
      rcases h4 : canRead .pyprojectToml d "pyproject.toml" <;>
      rcases h5 : canRead .toxToml d "tox.toml" <;>
      simp [h1, h2, h3, h4, h5, List.find?, probeReaders]
  · intro fi hfi
    unfold canRead
    rw [hfi]
    rfl

theorem C9_config_file_discovery_witness :
    canRead .setupCfg ⟨"/proj", [("setup.cfg", ⟨"[tox:tox]", []⟩)]⟩ "setup.cfg"
      = (strContains "[tox:tox]" "[tox:tox]" || strContains "[tox:tox]" "[testenv]") :=
  (C9_config_file_discovery ⟨"/proj", [("setup.cfg", ⟨"[tox:tox]", []⟩)]⟩).2
    ⟨"[tox:tox]", []⟩ rfl

/-- C10 counterexample: for the parsed kind `posargs[1]x` — which begins
with `posargs[` and does not end with `]` — the expression
`posargs[1]x:d` carries the default argument `d`; with empty posargs the
resolution returns the substituted default `d`, not the empty string the
claim asserts. -/
theorem C10_counterexample_default_not_empty :
    parseSubstitution "posargs[1]x:d" = ("posargs[1]x", ["d"]) ∧
    startsWithL ("posargs[1]x".data) ("posargs[".data) = true ∧
    endsWithBr ("posargs[1]x".data) = false ∧
    subSingleW (fun s => subStringF 1 s [] baseCtx) "posargs[1]x:d" [] baseCtx = some "d" ∧
    (some "d" : Option String) ≠ some "" :=
  ⟨rfl, rfl, rfl, rfl, by decide⟩

/-- C10 (amended): a parsed kind beginning with `posargs[` but not
ending with `]` falls through to the plain posargs rule rather than the
unknown-kind literal: the result is the space-joined posargs when they
are non-empty, else the recursively substituted default argument when
one was parsed, else the empty string (`substitutePosargsStr`). -/
theorem C10_unclosed_posargs_fallthrough :
    ∀ (recur : String → Option String) (expr k : String) (args : List String)
    (cfg : List (String × Value)) (ctx : Ctx),
    startsWithL expr.data ['['] = false →
    parseSubstitution expr = (k, args) →
    startsWithL k.data ("posargs[".data) = true →
    endsWithBr k.data = false →
    subSingleW recur expr cfg ctx =
      match args with
      | [] => some (substitutePosargsStr ctx.posargs Option.none)
      | d :: _ => (recur d).map (fun dv => substitutePosargsStr ctx.posargs (some dv)) := by
  intro recur expr k args cfg ctx hbr hp hpre hend
  rw [subSingleW_posargs_branch recur expr k args cfg ctx hbr hp hpre]
  simp only [hend, Bool.false_eq_true, if_false]
  rcases args with _ | ⟨d, rest⟩ <;> rfl

theorem C10_unclosed_posargs_fallthrough_witness :
    subSingleW (fun s => subStringF 1 s [] (posCtx ["a", "b"])) "posargs[1" []
      (posCtx ["a", "b"]) = some "a b" := by
  have h := C10_unclosed_posargs_fallthrough (fun s => subStringF 1 s [] (posCtx ["a", "b"]))
    "posargs[1" "posargs[1" [] [] (posCtx ["a", "b"]) rfl rfl rfl rfl
  rw [h]
  rfl

end ToxCfg
